import Mathlib

/-!
Verification of the response-shaping and exclusion-filtering layer of the
GitLab MCP code-review server (src/server.py), together with the
error-handling contracts of its tool operations.

Python dictionaries coming back from the GitLab client are modelled as
association lists of string keys to a JSON-like value type.  Python's
`dict.get` (one- and two-argument forms) and attribute access are modelled
explicitly, including the AttributeError raised when `.get` is invoked on a
non-mapping value.  `fnmatch.fnmatch` is modelled by translating the pattern
into tokens (mirroring fnmatch.translate) and matching the whole string.
-/

/-- A Python value as observed at the GitLab client boundary. -/
inductive Val where
  | null
  | str (s : String)
  | int (n : Int)
  | bool (b : Bool)
  | dict (entries : List (String × Val))
  | list (elems : List Val)

/-- Errors raised by the modelled Python fragments. -/
inductive PyError where
  | attributeError
  | typeError
deriving DecidableEq

/-- Lookup of a key in a Python dict (first matching entry). -/
def assocFind : List (String × Val) → String → Option Val
  | [], _ => none
  | (k, v) :: rest, key => if k == key then some v else assocFind rest key

/-- Python `d.get(key, default)` on a dict `d`. -/
def assocGetD (entries : List (String × Val)) (key : String) (dflt : Val) : Val :=
  match assocFind entries key with
  | some v => v
  | none => dflt

/-- Python `v.get(key)`: returns None when the key is absent, raises
AttributeError when `v` is not a mapping. -/
def pyGet1 (v : Val) (k : String) : Except PyError Val :=
  match v with
  | .dict d => .ok (assocGetD d k .null)
  | _ => .error .attributeError

/-- Python attribute access `v.k` on an upstream REST object whose attributes
are the dict `v`: raises AttributeError when absent or not a mapping. -/
def pyAttr (v : Val) (k : String) : Except PyError Val :=
  match v with
  | .dict d =>
    match assocFind d k with
    | some x => .ok x
    | none => .error .attributeError
  | _ => .error .attributeError

/-! ## Shell-glob matching (model of Python fnmatch)

`fnmatch.fnmatch(name, pat)` on a POSIX system (where os.path.normcase is
the identity) translates `pat` into a regular expression and matches the
whole of `name` against it.  We mirror the translation as a token list and
implement full-string matching of the token list. -/

/-- One token of a translated shell glob pattern. -/
inductive GlobTok where
  | lit (c : Char)
  | star
  | anyChar
  | charClass (negated : Bool) (body : List Char)

/-- Scan up to the closing bracket of a character class; returns the class
body and the remainder of the pattern, or none when no bracket closes. -/
def splitAtClose : List Char → Option (List Char × List Char)
  | [] => none
  | c :: rest =>
    if c = ']' then some ([], rest)
    else
      match splitAtClose rest with
      | none => none
      | some (body, after) => some (c :: body, after)

theorem splitAtClose_length :
    ∀ l body after, splitAtClose l = some (body, after) → after.length < l.length := by
  intro l
  induction l with
  | nil => intro body after h; simp [splitAtClose] at h
  | cons c rest ih =>
    intro body after h
    by_cases hc : c = ']'
    · simp [splitAtClose, hc] at h
      simp_all
    · simp only [splitAtClose, if_neg hc] at h
      cases hsc : splitAtClose rest with
      | none => rw [hsc] at h; exact absurd h (by simp)
      | some p =>
        rw [hsc] at h
        have := ih p.1 p.2 (by rw [hsc])
        cases h
        simp [List.length_cons]
        omega

/-- After the optional leading `!` of a class: a `]` in first position is a
literal member; then scan for the closing bracket. -/
def scanClassBody (neg : Bool) (l : List Char) : Option (Bool × List Char × List Char) :=
  match l with
  | [] => none
  | c :: rest =>
    if c = ']' then
      match splitAtClose rest with
      | none => none
      | some (body, after) => some (neg, ']' :: body, after)
    else
      match splitAtClose (c :: rest) with
      | none => none
      | some (body, after) => some (neg, body, after)

theorem scanClassBody_length :
    ∀ neg l neg2 body after,
      scanClassBody neg l = some (neg2, body, after) → after.length < l.length := by
  intro neg l neg2 body after h
  cases l with
  | nil => simp [scanClassBody] at h
  | cons c rest =>
    by_cases hc : c = ']'
    · simp only [scanClassBody, if_pos hc] at h
      cases hsc : splitAtClose rest with
      | none => rw [hsc] at h; exact absurd h (by simp)
      | some p =>
        rw [hsc] at h
        have := splitAtClose_length rest p.1 p.2 (by rw [hsc])
        cases h
        simp [List.length_cons]
        omega
    · simp only [scanClassBody, if_neg hc] at h
      cases hsc : splitAtClose (c :: rest) with
      | none => rw [hsc] at h; exact absurd h (by simp)
      | some p =>
        rw [hsc] at h
        have := splitAtClose_length (c :: rest) p.1 p.2 (by rw [hsc])
        cases h
        simp only [List.length_cons] at this ⊢
        omega

/-- Parse a `[...]` class following fnmatch.translate: a leading `!`
negates, and a `]` directly after the (possibly negated) opening bracket is
a literal member of the class.  Returns none when the class never closes
(in which case `[` is matched literally). -/
def scanClass (l : List Char) : Option (Bool × List Char × List Char) :=
  match l with
  | [] => none
  | c :: rest => if c = '!' then scanClassBody true rest else scanClassBody false (c :: rest)

theorem scanClass_length :
    ∀ l neg body after, scanClass l = some (neg, body, after) → after.length < l.length := by
  intro l neg body after h
  cases l with
  | nil => simp [scanClass] at h
  | cons c rest =>
    by_cases hc : c = '!'
    · simp only [scanClass, if_pos hc] at h
      have := scanClassBody_length true rest neg body after h
      simp [List.length_cons]
      omega
    · simp only [scanClass, if_neg hc] at h
      exact scanClassBody_length false (c :: rest) neg body after h

/-- Translate a glob pattern into tokens, mirroring fnmatch.translate:
a bare `*` and `?` become wildcards, `[...]` becomes a character class, an
unclosed `[` is a literal, every other character is a literal. -/
def translateTokens : List Char → List GlobTok
  | [] => []
  | c :: rest =>
    if c = '*' then .star :: translateTokens rest
    else if c = '?' then .anyChar :: translateTokens rest
    else if c = '[' then
      match hsc : scanClass rest with
      | none => .lit '[' :: translateTokens rest
      | some (neg, body, after) => .charClass neg body :: translateTokens after
    else .lit c :: translateTokens rest
termination_by l => l.length
decreasing_by
  · simp [List.length_cons]
  · simp [List.length_cons]
  · simp [List.length_cons]
  · have := scanClass_length rest neg body after hsc
    simp only [List.length_cons]
    omega
  · simp [List.length_cons]

/-- Membership of a character in a class body: `a-b` denotes a codepoint
range, any other character denotes itself. -/
def classMem : List Char → Char → Bool
  | [], _ => false
  | a :: '-' :: b :: rest, c => (a ≤ c && c ≤ b) || classMem rest c
  | a :: rest, c => (a == c) || classMem rest c

/-- Full-string matching of a token list against a character list (the
regular expression produced by fnmatch.translate is anchored at both
ends, and its dot matches every character). -/
def tokMatch : List GlobTok → List Char → Bool
  | [], [] => true
  | [], _ :: _ => false
  | .star :: ts, s =>
    tokMatch ts s ||
      (match s with
       | [] => false
       | _ :: s2 => tokMatch (.star :: ts) s2)
  | .anyChar :: ts, s =>
    (match s with
     | [] => false
     | _ :: s2 => tokMatch ts s2)
  | .lit c :: ts, s =>
    (match s with
     | [] => false
     | d :: s2 => (c == d) && tokMatch ts s2)
  | .charClass neg body :: ts, s =>
    (match s with
     | [] => false
     | d :: s2 => ((classMem body d) != neg) && tokMatch ts s2)
termination_by ts s => (ts.length, s.length)

/-- Python `fnmatch.fnmatch(name, pat)` on POSIX (normcase is identity):
whole-string shell-glob match of `name` against `pat`. -/
def fnmatch (name pat : String) : Bool :=
  tokMatch (translateTokens pat.data) name.data

/-- Python `needle in hay` for character lists: some contiguous infix of
`hay` equals `needle`. -/
def listContainsSub : List Char → List Char → Bool
  | [], needle => needle.isEmpty
  | c :: rest, needle => needle.isPrefixOf (c :: rest) || listContainsSub rest needle

/-- Python substring containment `needle in hay` on strings. -/
def strContains (hay needle : String) : Bool :=
  listContainsSub hay.data needle.data

/-- Python `s.startswith(p)`. -/
def strStartsWith (s p : String) : Bool :=
  p.data.isPrefixOf s.data

/-- Python `s.endswith(p)`. -/
def strEndsWith (s p : String) : Bool :=
  p.data.isSuffixOf s.data

/-- src/server.py is_path_excluded (lines 65-73): for each pattern in
order, a pattern ending in `/` matches when the path starts with it or
contains `/` followed by it; any other pattern is matched with
fnmatch.fnmatch; the first match returns true, otherwise false. -/
def is_path_excluded (file_path : String) : List String → Bool
  | [] => false
  | pattern :: rest =>
    if strEndsWith pattern "/" then
      if strStartsWith file_path pattern || strContains file_path ("/" ++ pattern) then true
      else is_path_excluded file_path rest
    else if fnmatch file_path pattern then true
    else is_path_excluded file_path rest

/-- The per-pattern test applied by one iteration of the is_path_excluded
loop. -/
def matches_one (file_path pattern : String) : Bool :=
  if strEndsWith pattern "/" then
    strStartsWith file_path pattern || strContains file_path ("/" ++ pattern)
  else fnmatch file_path pattern

theorem is_path_excluded_eq_any (file_path : String) :
    ∀ ps : List String, is_path_excluded file_path ps = ps.any (matches_one file_path) := by
  intro ps
  induction ps with
  | nil => simp [is_path_excluded]
  | cons pattern rest ih =>
    by_cases hp : strEndsWith pattern "/" = true
    · cases hm : (strStartsWith file_path pattern || strContains file_path ("/" ++ pattern)) with
      | true => simp [is_path_excluded, hp, hm, matches_one, List.any_cons]
      | false => simp [is_path_excluded, hp, hm, matches_one, List.any_cons, ih]
    · cases hm : fnmatch file_path pattern with
      | true =>
        simp only [Bool.not_eq_true] at hp
        simp [is_path_excluded, hp, hm, matches_one, List.any_cons]
      | false =>
        simp only [Bool.not_eq_true] at hp
        simp [is_path_excluded, hp, hm, matches_one, List.any_cons, ih]

/-- Claim C1: for a single pattern p, when p ends with a slash,
is_path_excluded returns true exactly when the path starts with p or
contains the slash-prefixed pattern as a substring; otherwise it returns
exactly the result of a full-string shell-glob match of the path against
p. -/
theorem c1_single_pattern_semantics (x p : String) :
    (strEndsWith p "/" = true →
      is_path_excluded x [p] = (strStartsWith x p || strContains x ("/" ++ p))) ∧
    (strEndsWith p "/" = false →
      is_path_excluded x [p] = fnmatch x p) := by
  constructor
  · intro h
    cases hm : (strStartsWith x p || strContains x ("/" ++ p)) with
    | true => simp [is_path_excluded, h, hm]
    | false => simp [is_path_excluded, h, hm]
  · intro h
    cases hm : fnmatch x p with
    | true => simp [is_path_excluded, h, hm]
    | false => simp [is_path_excluded, h, hm]

theorem c1_single_pattern_semantics_witness :
    (strEndsWith "vendor/" "/" = true ∧
      is_path_excluded "vendor/lib/x.py" ["vendor/"] =
        (strStartsWith "vendor/lib/x.py" "vendor/" ||
          strContains "vendor/lib/x.py" ("/" ++ "vendor/"))) ∧
    (strEndsWith "*.py" "/" = false ∧
      is_path_excluded "a.py" ["*.py"] = fnmatch "a.py" "*.py") :=
  ⟨⟨by decide, (c1_single_pattern_semantics "vendor/lib/x.py" "vendor/").1 (by decide)⟩,
   ⟨by decide, (c1_single_pattern_semantics "a.py" "*.py").2 (by decide)⟩⟩

/-- Claim C2: is_path_excluded is true exactly when some pattern of the
list matches the path, hence the result is invariant under permutation of
the pattern list, and the empty pattern list never excludes anything. -/
theorem c2_any_match_perm_invariant (x : String) (ps qs : List String)
    (hperm : ps.Perm qs) :
    (is_path_excluded x ps = true ↔ ∃ p ∈ ps, matches_one x p = true) ∧
    is_path_excluded x ps = is_path_excluded x qs ∧
    is_path_excluded x [] = false := by
  refine ⟨?_, ?_, by simp [is_path_excluded]⟩
  · rw [is_path_excluded_eq_any]
    exact List.any_eq_true
  · rw [is_path_excluded_eq_any, is_path_excluded_eq_any]
    cases hq : qs.any (matches_one x) with
    | true =>
      rw [List.any_eq_true] at hq ⊢
      obtain ⟨p, hp, hm⟩ := hq
      exact ⟨p, hperm.mem_iff.mpr hp, hm⟩
    | false =>
      rw [List.any_eq_false] at hq ⊢
      intro p hp
      exact hq p (hperm.mem_iff.mp hp)

theorem c2_any_match_perm_invariant_witness :
    (is_path_excluded "vendor/x.py" ["vendor/", "*.md"] = true ↔
      ∃ p ∈ (["vendor/", "*.md"] : List String), matches_one "vendor/x.py" p = true) ∧
    is_path_excluded "vendor/x.py" ["vendor/", "*.md"] =
      is_path_excluded "vendor/x.py" ["*.md", "vendor/"] ∧
    is_path_excluded "vendor/x.py" [] = false :=
  c2_any_match_perm_invariant "vendor/x.py" ["vendor/", "*.md"] ["*.md", "vendor/"]
    (List.Perm.swap _ _ _)

/-- Claim C10: a slash-terminated pattern is never glob-matched: the path
is compared against the pattern characters literally (prefix or
slash-anchored substring), so wildcards in such a pattern have no special
meaning.  In particular a path under a directory that the pattern would
glob-match is not excluded, while a path whose directory is literally
named with the wildcard character is. -/
theorem c10_slash_pattern_literal (x p : String) (h : strEndsWith p "/" = true) :
    is_path_excluded x [p] = (strStartsWith x p || strContains x ("/" ++ p)) ∧
    is_path_excluded "vendor/x.py" ["v*/"] = false ∧
    is_path_excluded "vendor/" ["v*/"] = false ∧
    fnmatch "vendor/" "v*/" = true ∧
    is_path_excluded "v*/x.py" ["v*/"] = true := by
  refine ⟨?_, by decide, by decide, ?_, by decide⟩
  · cases hm : (strStartsWith x p || strContains x ("/" ++ p)) with
    | true => simp [is_path_excluded, h, hm]
    | false => simp [is_path_excluded, h, hm]
  · simp [fnmatch, translateTokens, scanClass, scanClassBody, splitAtClose, tokMatch, classMem]

theorem c10_slash_pattern_literal_witness :
    is_path_excluded "vendor/x.py" ["vendor/"] =
      (strStartsWith "vendor/x.py" "vendor/" || strContains "vendor/x.py" ("/" ++ "vendor/")) ∧
    is_path_excluded "vendor/x.py" ["v*/"] = false :=
  ⟨(c10_slash_pattern_literal "vendor/x.py" "vendor/" (by decide)).1,
   (c10_slash_pattern_literal "vendor/x.py" "vendor/" (by decide)).2.1⟩

/-! ## Response Slimmer (src/server.py)

Each slimmer maps one upstream object shape (a Python dict) to its reduced
projection, mirroring the dict literals of fetch_merge_request.  The
author flattening uses `d.get("author", {}).get("name")`, which raises
AttributeError when the author value is present but not a mapping. -/

/-- src/server.py lines 91-102: the nine-field merge-request projection.
The author field is flattened via mr_data.get("author", {}).get("name"). -/
def slim_merge_request (mr_data : Val) : Except PyError Val :=
  match mr_data with
  | .dict d =>
    match pyGet1 (assocGetD d "author" (Val.dict [])) "name" with
    | .error e => .error e
    | .ok authorName =>
      .ok (.dict [
        ("id", assocGetD d "id" .null),
        ("iid", assocGetD d "iid" .null),
        ("project_id", assocGetD d "project_id" .null),
        ("title", assocGetD d "title" .null),
        ("description", assocGetD d "description" .null),
        ("state", assocGetD d "state" .null),
        ("author", authorName),
        ("source_branch", assocGetD d "source_branch" .null),
        ("target_branch", assocGetD d "target_branch" .null)])
  | _ => .error .attributeError

/-- src/server.py lines 114-121: the six-field change projection. -/
def slim_change (change : Val) : Except PyError Val :=
  match change with
  | .dict d =>
    .ok (.dict [
      ("new_path", assocGetD d "new_path" .null),
      ("old_path", assocGetD d "old_path" .null),
      ("new_file", assocGetD d "new_file" .null),
      ("renamed_file", assocGetD d "renamed_file" .null),
      ("deleted_file", assocGetD d "deleted_file" .null),
      ("diff", assocGetD d "diff" .null)])
  | _ => .error .attributeError

/-- src/server.py lines 141-152: the note projection (the source first
converts non-dict note objects with asdict(), which is outside this model;
the input here is the dict form). -/
def slim_note (note : Val) : Except PyError Val :=
  match note with
  | .dict d =>
    match pyGet1 (assocGetD d "author" (Val.dict [])) "name" with
    | .error e => .error e
    | .ok authorName =>
      .ok (.dict [
        ("id", assocGetD d "id" .null),
        ("type", assocGetD d "type" .null),
        ("body", assocGetD d "body" .null),
        ("system", assocGetD d "system" .null),
        ("author", authorName),
        ("position", assocGetD d "position" (Val.dict []))])
  | _ => .error .attributeError

/-- src/server.py lines 131-137: the four-field commit projection, built
from attribute access on the commit object (modelled as its attribute
dict). -/
def slim_commit (c : Val) : Except PyError Val := do
  let i ← pyAttr c "id"
  let sid ← pyAttr c "short_id"
  let t ← pyAttr c "title"
  let an ← pyAttr c "author_name"
  return Val.dict [("id", i), ("short_id", sid), ("title", t), ("author_name", an)]

/-- The list comprehension over a discussion's notes: the first failing
note aborts the whole comprehension. -/
def mapSlimNotes : List Val → Except PyError (List Val)
  | [] => .ok []
  | n :: rest =>
    match slim_note n with
    | .error e => .error e
    | .ok w =>
      match mapSlimNotes rest with
      | .error e => .error e
      | .ok ws => .ok (w :: ws)

/-- src/server.py lines 158-165: the discussion projection: slims the
notes of d.attributes (default empty list), then reads d.id and
d.individual_note. -/
def slim_discussion (d : Val) : Except PyError Val :=
  match d with
  | .dict entries =>
    match assocGetD entries "notes" (Val.list []) with
    | .list ns =>
      match mapSlimNotes ns with
      | .error e => .error e
      | .ok slimmed => do
        let i ← pyAttr (Val.dict entries) "id"
        let ind ← pyAttr (Val.dict entries) "individual_note"
        return Val.dict [("id", i), ("individual_note", ind), ("notes", Val.list slimmed)]
    | _ => .error .typeError
  | _ => .error .attributeError

/-! ## Well-formedness of upstream objects

What §4.3 of the spec calls well-formed input: the object is a mapping,
whose author field (where one is consulted) is itself a mapping, and whose
upstream-guaranteed attributes are present. -/

/-- The value is a Python dict. -/
def isDictVal : Val → Bool
  | .dict _ => true
  | _ => false

/-- The author field, defaulted to an empty dict, is a mapping. -/
def wfAuthorField (d : List (String × Val)) : Bool :=
  isDictVal (assocGetD d "author" (Val.dict []))

/-- Well-formed raw merge request: a dict whose author field is a mapping
(or absent). -/
def wfMergeRequest (v : Val) : Bool :=
  match v with
  | .dict d => wfAuthorField d
  | _ => false

/-- Well-formed raw note: a dict whose author field is a mapping (or
absent). -/
def wfNote (v : Val) : Bool :=
  match v with
  | .dict d => wfAuthorField d
  | _ => false

/-- Well-formed raw change: any dict. -/
def wfChange (v : Val) : Bool :=
  isDictVal v

/-- Well-formed raw commit: a dict carrying the four attributes read by
the projection. -/
def wfCommit (v : Val) : Bool :=
  match v with
  | .dict d =>
    (assocFind d "id").isSome && (assocFind d "short_id").isSome &&
      (assocFind d "title").isSome && (assocFind d "author_name").isSome
  | _ => false

/-- Well-formed raw discussion: a dict carrying id and individual_note,
whose notes field (defaulted to an empty list) is a list of well-formed
notes. -/
def wfDiscussion (v : Val) : Bool :=
  match v with
  | .dict d =>
    (assocFind d "id").isSome && (assocFind d "individual_note").isSome &&
      (match assocGetD d "notes" (Val.list []) with
       | .list ns => ns.all wfNote
       | _ => false)
  | _ => false

/-! ## Tool operations

The upstream GitLab client is modelled at the boundary: each network call
appears as an argument carrying either its result or the error it raised.
-/

/-- An error raised by the upstream GitLab client. -/
structure GitlabError where
  message : String

/-- A tool-level error surfaced to the caller. -/
inductive ToolError where
  | notFoundError (msg : String)

/-- The change-entry projection of one file's diff (spec 3). -/
structure ChangeEntry where
  new_path : String
  old_path : String
  new_file : Bool
  renamed_file : Bool
  deleted_file : Bool
  diff : String
deriving DecidableEq

/-- Modelled from the spec: the fetchMergeRequestDiff tool operation is
not present in src/server.py.  Per spec 4.4 it fetches the MR's changes
and, when filePath is given, retains only entries whose new or old path
equals it, failing with NotFoundError when no entry matches. -/
def fetch_merge_request_diff (changes : List ChangeEntry) (file_path : Option String) :
    Except ToolError (List ChangeEntry) :=
  match file_path with
  | none => .ok changes
  | some fp =>
    let filtered := changes.filter (fun c => c.new_path == fp || c.old_path == fp)
    if filtered.isEmpty then
      .error (.notFoundError ("No changes found for file path: " ++ fp))
    else .ok filtered

/-- Modelled from the spec: the fetchCommitDiff tool operation is not
present in src/server.py.  Per spec 4.4 it fetches the commit and its
diff; when the diff fetch raises it substitutes an empty diff list; when
filePath is given it filters as fetchMergeRequestDiff does, but fails with
NotFoundError only when filtering a non-empty diff list yields no match (a
genuinely empty diff is not an error). -/
def fetch_commit_diff (commit : Val) (diff_result : Except GitlabError (List ChangeEntry))
    (file_path : Option String) : Except ToolError (Val × List ChangeEntry) :=
  let diffs := match diff_result with
    | .ok ds => ds
    | .error _ => []
  match file_path with
  | none => .ok (commit, diffs)
  | some fp =>
    let filtered := diffs.filter (fun c => c.new_path == fp || c.old_path == fp)
    if filtered.isEmpty && !diffs.isEmpty then
      .error (.notFoundError ("No diff found for file path: " ++ fp))
    else .ok (commit, filtered)

/-- src/server.py lines 174-195 compare_versions: the project lookup
gl.projects.get(project_id) at line 187 runs outside the try block, so its
failure propagates to the caller; only the repository_compare call at line
190 is attempted inside the try, where any exception is logged and an
empty dict is returned instead. -/
def compare_versions (project_result : Except GitlabError Val)
    (repository_compare : Val → Except GitlabError Val) : Except GitlabError Val :=
  match project_result with
  | .error e => .error e
  | .ok project =>
    match repository_compare project with
    | .ok result => .ok result
    | .error _ => .ok (Val.dict [])

/-- src/server.py lines 354-374 unapprove_merge_request: mr.unapprove()
is attempted; on any exception the error is logged and swallowed; the
MR's current state (mr.asdict()) is returned either way. -/
def unapprove_merge_request (mr : Val) (unapprove_result : Except GitlabError Unit) : Val :=
  match unapprove_result with
  | .ok _ => mr
  | .error _ => mr

/-- A note of a discussion as consulted by the deletion operation
(discussion.notes[0]["id"]). -/
structure DiscussionNote where
  id : Int
  body : String
deriving DecidableEq

/-- The upstream notes.delete(note_id) call: removes the (unique) note
with the given id from the discussion. -/
def delete_note_by_id : List DiscussionNote → Int → List DiscussionNote
  | [], _ => []
  | n :: rest, nid => if n.id = nid then rest else n :: delete_note_by_id rest nid

/-- src/server.py lines 305-329 delete_merge_request_discussion: when the
discussion has notes, delete its first note upstream and return a success
dict carrying that note's id; otherwise return the failed-status dict.
The pair is (returned dict, notes of the discussion after the call). -/
def delete_merge_request_discussion (notes : List DiscussionNote) :
    Val × List DiscussionNote :=
  match notes with
  | [] =>
    (Val.dict [("status", Val.str "failed"),
               ("message", Val.str "Discussion has no notes to delete.")], [])
  | first :: rest =>
    (Val.dict [("status", Val.str "success"), ("deleted_note_id", Val.int first.id)],
     delete_note_by_id (first :: rest) first.id)

/-- Claim C3: with a filePath given, fetchMergeRequestDiff returns exactly
the change entries whose new or old path equals the filePath, and fails
with NotFoundError when no entry matches. -/
theorem c3_fetch_mr_diff_filters (changes : List ChangeEntry) (fp : String) :
    ((∃ c ∈ changes, c.new_path = fp ∨ c.old_path = fp) →
      fetch_merge_request_diff changes (some fp) =
        .ok (changes.filter (fun c => c.new_path == fp || c.old_path == fp))) ∧
    ((∀ c ∈ changes, ¬(c.new_path = fp ∨ c.old_path = fp)) →
      fetch_merge_request_diff changes (some fp) =
        .error (.notFoundError ("No changes found for file path: " ++ fp))) ∧
    (∀ out, fetch_merge_request_diff changes (some fp) = .ok out →
      ∀ c, c ∈ out ↔ c ∈ changes ∧ (c.new_path = fp ∨ c.old_path = fp)) := by
  refine ⟨?_, ?_, ?_⟩
  · rintro ⟨c, hc, hm⟩
    have hne : changes.filter (fun c => c.new_path == fp || c.old_path == fp) ≠ [] := by
      intro hnil
      have := List.filter_eq_nil_iff.mp hnil c hc
      simp only [Bool.or_eq_true, beq_iff_eq] at this
      exact this hm
    have hemp : (changes.filter (fun c => c.new_path == fp || c.old_path == fp)).isEmpty = false := by
      cases he : (changes.filter (fun c => c.new_path == fp || c.old_path == fp)).isEmpty with
      | true => exact absurd (List.isEmpty_iff.mp he) hne
      | false => rfl
    simp [fetch_merge_request_diff, hemp]
  · intro hall
    have hnil : changes.filter (fun c => c.new_path == fp || c.old_path == fp) = [] := by
      apply List.filter_eq_nil_iff.mpr
      intro c hc
      simp only [Bool.or_eq_true, beq_iff_eq]
      exact hall c hc
    simp [fetch_merge_request_diff, hnil]
  · intro out hout c
    by_cases hemp : (changes.filter (fun c => c.new_path == fp || c.old_path == fp)).isEmpty = true
    · simp [fetch_merge_request_diff, hemp] at hout
    · simp only [Bool.not_eq_true] at hemp
      simp only [fetch_merge_request_diff, hemp, Bool.false_eq_true, if_false,
        Except.ok.injEq] at hout
      rw [← hout, List.mem_filter]
      simp

theorem c3_fetch_mr_diff_filters_witness :
    (fetch_merge_request_diff
        [⟨"src/a.py", "src/a.py", false, false, false, "@@ -1 +1 @@"⟩,
         ⟨"src/b.py", "src/b.py", false, false, false, "@@ -2 +2 @@"⟩] (some "src/a.py") =
      .ok [⟨"src/a.py", "src/a.py", false, false, false, "@@ -1 +1 @@"⟩]) ∧
    (fetch_merge_request_diff
        [⟨"src/a.py", "src/a.py", false, false, false, "@@ -1 +1 @@"⟩,
         ⟨"src/b.py", "src/b.py", false, false, false, "@@ -2 +2 @@"⟩] (some "missing.py") =
      .error (.notFoundError ("No changes found for file path: " ++ "missing.py"))) :=
  ⟨(c3_fetch_mr_diff_filters
      [⟨"src/a.py", "src/a.py", false, false, false, "@@ -1 +1 @@"⟩,
       ⟨"src/b.py", "src/b.py", false, false, false, "@@ -2 +2 @@"⟩] "src/a.py").1
      ⟨⟨"src/a.py", "src/a.py", false, false, false, "@@ -1 +1 @@"⟩, by simp, Or.inl rfl⟩,
   (c3_fetch_mr_diff_filters
      [⟨"src/a.py", "src/a.py", false, false, false, "@@ -1 +1 @@"⟩,
       ⟨"src/b.py", "src/b.py", false, false, false, "@@ -2 +2 @@"⟩] "missing.py").2.1
      (by decide)⟩

/-- Claim C4: when the upstream diff fetch raises, fetchCommitDiff returns
the commit with an empty diff list instead of propagating; it raises
NotFoundError only when a filePath is given and filtering a non-empty diff
list yields no match; a genuinely empty diff list is returned untouched. -/
theorem c4_fetch_commit_diff_soft (commit : Val) (e : GitlabError)
    (fp : Option String) (ds : List ChangeEntry) :
    fetch_commit_diff commit (.error e) fp = .ok (commit, []) ∧
    (∀ te, fetch_commit_diff commit (.ok ds) fp = .error te →
      ∃ p, fp = some p ∧ ds ≠ [] ∧
        ds.filter (fun c => c.new_path == p || c.old_path == p) = []) ∧
    fetch_commit_diff commit (.ok []) fp = .ok (commit, []) := by
  refine ⟨?_, ?_, ?_⟩
  · cases fp with
    | none => rfl
    | some p => simp [fetch_commit_diff]
  · intro te hout
    cases fp with
    | none => simp [fetch_commit_diff] at hout
    | some p =>
      refine ⟨p, rfl, ?_⟩
      by_cases hcond :
          ((ds.filter (fun c => c.new_path == p || c.old_path == p)).isEmpty && !ds.isEmpty) = true
      · obtain ⟨h1, h2⟩ := Bool.and_eq_true_iff.mp hcond
        refine ⟨?_, List.isEmpty_iff.mp h1⟩
        intro hnil
        rw [hnil] at h2
        simp at h2
      · simp only [Bool.not_eq_true] at hcond
        simp [fetch_commit_diff, hcond] at hout
  · cases fp with
    | none => rfl
    | some p => simp [fetch_commit_diff]

theorem c4_fetch_commit_diff_soft_witness :
    fetch_commit_diff (Val.dict [("id", Val.str "deadbeef")]) (.error ⟨"500 internal error"⟩)
      (some "a.py") = .ok (Val.dict [("id", Val.str "deadbeef")], []) ∧
    (∃ p, (some "missing.py" : Option String) = some p ∧
      ([⟨"a.py", "a.py", false, false, false, "@@"⟩] : List ChangeEntry) ≠ [] ∧
      ([⟨"a.py", "a.py", false, false, false, "@@"⟩] : List ChangeEntry).filter
        (fun c => c.new_path == p || c.old_path == p) = []) :=
  ⟨(c4_fetch_commit_diff_soft (Val.dict [("id", Val.str "deadbeef")]) ⟨"500 internal error"⟩
      (some "a.py") []).1,
   (c4_fetch_commit_diff_soft (Val.dict [("id", Val.str "deadbeef")]) ⟨"500 internal error"⟩
      (some "missing.py") [⟨"a.py", "a.py", false, false, false, "@@"⟩]).2.1
      (.notFoundError ("No diff found for file path: " ++ "missing.py")) rfl⟩

/-- Claim C5 counterexample: the claim says compareVersions never
propagates any upstream failure, but when the project lookup itself fails
(it runs outside the try block) the error propagates to the caller instead
of an empty result being returned. -/
theorem c5_compare_versions_counterexample :
    compare_versions (Except.error ⟨"404 Project Not Found"⟩) (fun p => Except.ok p)
      = Except.error ⟨"404 Project Not Found"⟩ ∧
    compare_versions (Except.error ⟨"404 Project Not Found"⟩) (fun p => Except.ok p)
      ≠ Except.ok (Val.dict []) :=
  ⟨rfl, fun h => Except.noConfusion h⟩

/-- Claim C5 (amended): only a failure of the repository_compare call is
swallowed: compareVersions then returns the empty dict rather than
propagating; a successful comparison is returned as is; but a failure of
the project lookup, which runs outside the try block, propagates to the
caller. -/
theorem c5_compare_versions_amended (e : GitlabError) (project : Val)
    (repo_compare : Val → Except GitlabError Val) :
    compare_versions (Except.error e) repo_compare = Except.error e ∧
    (repo_compare project = Except.error e →
      compare_versions (Except.ok project) repo_compare = Except.ok (Val.dict [])) ∧
    (∀ r, repo_compare project = Except.ok r →
      compare_versions (Except.ok project) repo_compare = Except.ok r) := by
  refine ⟨rfl, ?_, ?_⟩
  · intro h
    simp [compare_versions, h]
  · intro r h
    simp [compare_versions, h]

theorem c5_compare_versions_amended_witness :
    compare_versions (Except.error ⟨"timeout"⟩) (fun p => Except.ok p)
      = Except.error ⟨"timeout"⟩ ∧
    compare_versions (Except.ok (Val.dict [("id", Val.int 42)]))
      (fun _ => Except.error ⟨"500 internal error"⟩) = Except.ok (Val.dict []) ∧
    compare_versions (Except.ok (Val.dict [("id", Val.int 42)]))
      (fun _ => Except.ok (Val.dict [("commits", Val.list [])]))
      = Except.ok (Val.dict [("commits", Val.list [])]) :=
  ⟨(c5_compare_versions_amended ⟨"timeout"⟩ (Val.dict []) (fun p => Except.ok p)).1,
   (c5_compare_versions_amended ⟨"500 internal error"⟩ (Val.dict [("id", Val.int 42)])
      (fun _ => Except.error ⟨"500 internal error"⟩)).2.1 rfl,
   (c5_compare_versions_amended ⟨"500 internal error"⟩ (Val.dict [("id", Val.int 42)])
      (fun _ => Except.ok (Val.dict [("commits", Val.list [])]))).2.2
      (Val.dict [("commits", Val.list [])]) rfl⟩

/-- Claim C6: deleting a discussion with at least one note deletes exactly
the first note (the remaining notes are the tail) and returns the success
dict carrying that note's id; deleting a discussion with no notes returns
the failed-status dict without raising. -/
theorem c6_delete_discussion_first_note (first : DiscussionNote)
    (rest : List DiscussionNote) :
    delete_merge_request_discussion (first :: rest) =
      (Val.dict [("status", Val.str "success"), ("deleted_note_id", Val.int first.id)],
       rest) ∧
    delete_merge_request_discussion [] =
      (Val.dict [("status", Val.str "failed"),
                 ("message", Val.str "Discussion has no notes to delete.")], []) := by
  constructor
  · simp [delete_merge_request_discussion, delete_note_by_id]
  · rfl

/-- Claim C7: a failing upstream unapprove call is swallowed (the
operation's result type carries no error), and the MR's current state is
returned whatever the upstream outcome. -/
theorem c7_unapprove_swallows (mr : Val) (e : GitlabError) :
    unapprove_merge_request mr (.error e) = mr ∧
    ∀ r, unapprove_merge_request mr r = mr := by
  refine ⟨rfl, ?_⟩
  intro r
  cases r with
  | ok u => rfl
  | error f => rfl

/-- A concrete well-formed raw merge request used to exhibit the behaviour
of slim_merge_request on its own output. -/
def rawMRExample : Val :=
  Val.dict [("id", Val.int 1), ("iid", Val.int 2), ("project_id", Val.int 3),
    ("title", Val.str "Add feature"), ("description", Val.str "Adds a feature"),
    ("state", Val.str "opened"), ("author", Val.dict [("name", Val.str "Alice")]),
    ("source_branch", Val.str "feature"), ("target_branch", Val.str "main")]

/-- Claim C8 counterexample: applying slim_merge_request to its own output
is not the same as applying it once; on a well-formed raw merge request the
second application raises AttributeError, because the output's author field
is the flattened name string, and .get("name") on a string is an attribute
error. -/
theorem c8_idempotent_counterexample :
    ¬ ((slim_merge_request rawMRExample).bind slim_merge_request
        = slim_merge_request rawMRExample) := by
  intro h
  rw [show (slim_merge_request rawMRExample).bind slim_merge_request
      = Except.error PyError.attributeError from rfl] at h
  rw [show slim_merge_request rawMRExample
      = Except.ok (Val.dict [("id", Val.int 1), ("iid", Val.int 2),
          ("project_id", Val.int 3), ("title", Val.str "Add feature"),
          ("description", Val.str "Adds a feature"), ("state", Val.str "opened"),
          ("author", Val.str "Alice"), ("source_branch", Val.str "feature"),
          ("target_branch", Val.str "main")]) from rfl] at h
  exact Except.noConfusion h

/-- The value is a string or None (the shape of a flattened author name). -/
def isStrOrNull : Val → Bool
  | .null => true
  | .str _ => true
  | _ => false

/-- Claim C8 (amended): slim_merge_request is not idempotent.  For every
raw merge request whose author field is a mapping with a string-or-null
name, the first application succeeds, but applying the projection to its
own output raises AttributeError: the output's author entry is the
flattened name, no longer a mapping, so .get("name") on it fails. -/
theorem c8_amended_not_idempotent (d ad : List (String × Val)) (s : Val)
    (hauthor : assocGetD d "author" (Val.dict []) = Val.dict ad)
    (hname : isStrOrNull (assocGetD ad "name" Val.null) = true)
    (hs : slim_merge_request (Val.dict d) = Except.ok s) :
    slim_merge_request s = Except.error PyError.attributeError := by
  simp only [slim_merge_request, hauthor, pyGet1, Except.ok.injEq] at hs
  rw [← hs]
  cases hval : assocGetD ad "name" Val.null with
  | null => rfl
  | str nm => rfl
  | int n => rw [hval] at hname; simp [isStrOrNull] at hname
  | bool b => rw [hval] at hname; simp [isStrOrNull] at hname
  | dict l => rw [hval] at hname; simp [isStrOrNull] at hname
  | list l => rw [hval] at hname; simp [isStrOrNull] at hname

theorem c8_amended_not_idempotent_witness :
    slim_merge_request (Val.dict [("id", Val.int 1), ("iid", Val.int 2),
      ("project_id", Val.int 3), ("title", Val.str "Add feature"),
      ("description", Val.str "Adds a feature"), ("state", Val.str "opened"),
      ("author", Val.str "Alice"), ("source_branch", Val.str "feature"),
      ("target_branch", Val.str "main")]) = Except.error PyError.attributeError :=
  c8_amended_not_idempotent
    [("id", Val.int 1), ("iid", Val.int 2), ("project_id", Val.int 3),
     ("title", Val.str "Add feature"), ("description", Val.str "Adds a feature"),
     ("state", Val.str "opened"), ("author", Val.dict [("name", Val.str "Alice")]),
     ("source_branch", Val.str "feature"), ("target_branch", Val.str "main")]
    [("name", Val.str "Alice")]
    (Val.dict [("id", Val.int 1), ("iid", Val.int 2), ("project_id", Val.int 3),
     ("title", Val.str "Add feature"), ("description", Val.str "Adds a feature"),
     ("state", Val.str "opened"), ("author", Val.str "Alice"),
     ("source_branch", Val.str "feature"), ("target_branch", Val.str "main")])
    rfl rfl rfl

theorem slim_note_ok_of_wf (v : Val) (h : wfNote v = true) :
    ∃ w, slim_note v = Except.ok w := by
  cases v with
  | dict d =>
    simp only [wfNote, wfAuthorField, isDictVal] at h
    cases hv : assocGetD d "author" (Val.dict []) with
    | dict ad => exact ⟨_, by simp [slim_note, hv, pyGet1]; rfl⟩
    | null => rw [hv] at h; simp at h
    | str s2 => rw [hv] at h; simp at h
    | int n => rw [hv] at h; simp at h
    | bool b => rw [hv] at h; simp at h
    | list l => rw [hv] at h; simp at h
  | null => simp [wfNote] at h
  | str s2 => simp [wfNote] at h
  | int n => simp [wfNote] at h
  | bool b => simp [wfNote] at h
  | list l => simp [wfNote] at h

theorem mapSlimNotes_ok_of_wf (ns : List Val) (h : ns.all wfNote = true) :
    ∃ l, mapSlimNotes ns = Except.ok l := by
  induction ns with
  | nil => exact ⟨[], rfl⟩
  | cons n rest ih =>
    rw [List.all_cons, Bool.and_eq_true_iff] at h
    obtain ⟨w, hw⟩ := slim_note_ok_of_wf n h.1
    obtain ⟨l, hl⟩ := ih h.2
    exact ⟨w :: l, by simp [mapSlimNotes, hw, hl]⟩

/-- Claim C9: every slimmer projection is total on well-formed input: on a
well-formed merge request, note, change, commit or discussion it returns a
value and never raises; and missing optional fields project to empty or
absent values (a missing field of a merge request or note projects to
None, a missing note position to the empty mapping). -/
theorem c9_slimmers_total (mr note ch c d : Val) :
    (wfMergeRequest mr = true → ∃ v, slim_merge_request mr = Except.ok v) ∧
    (wfNote note = true → ∃ v, slim_note note = Except.ok v) ∧
    (wfChange ch = true → ∃ v, slim_change ch = Except.ok v) ∧
    (wfCommit c = true → ∃ v, slim_commit c = Except.ok v) ∧
    (wfDiscussion d = true → ∃ v, slim_discussion d = Except.ok v) ∧
    slim_merge_request (Val.dict []) =
      Except.ok (Val.dict [("id", Val.null), ("iid", Val.null),
        ("project_id", Val.null), ("title", Val.null), ("description", Val.null),
        ("state", Val.null), ("author", Val.null), ("source_branch", Val.null),
        ("target_branch", Val.null)]) ∧
    slim_note (Val.dict []) =
      Except.ok (Val.dict [("id", Val.null), ("type", Val.null), ("body", Val.null),
        ("system", Val.null), ("author", Val.null), ("position", Val.dict [])]) := by
  refine ⟨?_, slim_note_ok_of_wf note, ?_, ?_, ?_, rfl, rfl⟩
  · intro h
    cases mr with
    | dict dd =>
      simp only [wfMergeRequest, wfAuthorField, isDictVal] at h
      cases hv : assocGetD dd "author" (Val.dict []) with
      | dict ad => exact ⟨_, by simp [slim_merge_request, hv, pyGet1]; rfl⟩
      | null => rw [hv] at h; simp at h
      | str s2 => rw [hv] at h; simp at h
      | int n => rw [hv] at h; simp at h
      | bool b => rw [hv] at h; simp at h
      | list l => rw [hv] at h; simp at h
    | null => simp [wfMergeRequest] at h
    | str s2 => simp [wfMergeRequest] at h
    | int n => simp [wfMergeRequest] at h
    | bool b => simp [wfMergeRequest] at h
    | list l => simp [wfMergeRequest] at h
  · intro h
    cases ch with
    | dict dd => exact ⟨_, rfl⟩
    | null => simp [wfChange, isDictVal] at h
    | str s2 => simp [wfChange, isDictVal] at h
    | int n => simp [wfChange, isDictVal] at h
    | bool b => simp [wfChange, isDictVal] at h
    | list l => simp [wfChange, isDictVal] at h
  · intro h
    cases c with
    | dict dd =>
      simp only [wfCommit, Bool.and_eq_true_iff, Option.isSome_iff_exists] at h
      obtain ⟨⟨⟨⟨i, hi⟩, ⟨si, hsi⟩⟩, ⟨t, ht⟩⟩, ⟨an, han⟩⟩ := h
      exact ⟨_, by simp [slim_commit, pyAttr, hi, hsi, ht, han]; rfl⟩
    | null => simp [wfCommit] at h
    | str s2 => simp [wfCommit] at h
    | int n => simp [wfCommit] at h
    | bool b => simp [wfCommit] at h
    | list l => simp [wfCommit] at h
  · intro h
    cases d with
    | dict dd =>
      simp only [wfDiscussion, Bool.and_eq_true_iff, Option.isSome_iff_exists] at h
      obtain ⟨⟨⟨i, hi⟩, ⟨ind, hind⟩⟩, hnotes⟩ := h
      cases hn : assocGetD dd "notes" (Val.list []) with
      | list ns =>
        rw [hn] at hnotes
        obtain ⟨l, hl⟩ := mapSlimNotes_ok_of_wf ns hnotes
        exact ⟨_, by simp [slim_discussion, hn, hl, pyAttr, hi, hind]; rfl⟩
      | null => rw [hn] at hnotes; simp at hnotes
      | str s2 => rw [hn] at hnotes; simp at hnotes
      | int n => rw [hn] at hnotes; simp at hnotes
      | bool b => rw [hn] at hnotes; simp at hnotes
      | dict l => rw [hn] at hnotes; simp at hnotes
    | null => simp [wfDiscussion] at h
    | str s2 => simp [wfDiscussion] at h
    | int n => simp [wfDiscussion] at h
    | bool b => simp [wfDiscussion] at h
    | list l => simp [wfDiscussion] at h

theorem c9_slimmers_total_witness :
    (∃ v, slim_merge_request (Val.dict [("id", Val.int 7),
      ("author", Val.dict [("name", Val.str "Bob")])]) = Except.ok v) ∧
    (∃ v, slim_note (Val.dict [("id", Val.int 10), ("body", Val.str "LGTM"),
      ("author", Val.dict [("name", Val.str "Bob")])]) = Except.ok v) ∧
    (∃ v, slim_change (Val.dict [("new_path", Val.str "a.py"),
      ("old_path", Val.str "a.py")]) = Except.ok v) ∧
    (∃ v, slim_commit (Val.dict [("id", Val.str "deadbeef"),
      ("short_id", Val.str "dead"), ("title", Val.str "fix"),
      ("author_name", Val.str "Bob")]) = Except.ok v) ∧
    (∃ v, slim_discussion (Val.dict [("id", Val.str "disc1"),
      ("individual_note", Val.bool false),
      ("notes", Val.list [Val.dict [("id", Val.int 10)]])]) = Except.ok v) :=
  ⟨(c9_slimmers_total (Val.dict [("id", Val.int 7),
      ("author", Val.dict [("name", Val.str "Bob")])]) Val.null Val.null Val.null
      Val.null).1 rfl,
   (c9_slimmers_total Val.null (Val.dict [("id", Val.int 10), ("body", Val.str "LGTM"),
      ("author", Val.dict [("name", Val.str "Bob")])]) Val.null Val.null
      Val.null).2.1 rfl,
   (c9_slimmers_total Val.null Val.null (Val.dict [("new_path", Val.str "a.py"),
      ("old_path", Val.str "a.py")]) Val.null Val.null).2.2.1 rfl,
   (c9_slimmers_total Val.null Val.null Val.null (Val.dict [("id", Val.str "deadbeef"),
      ("short_id", Val.str "dead"), ("title", Val.str "fix"),
      ("author_name", Val.str "Bob")]) Val.null).2.2.2.1 rfl,
   (c9_slimmers_total Val.null Val.null Val.null Val.null
      (Val.dict [("id", Val.str "disc1"), ("individual_note", Val.bool false),
        ("notes", Val.list [Val.dict [("id", Val.int 10)]])])).2.2.2.2.1 rfl⟩
